import Mathlib

/-!
Shallow embedding of `src/graphics.rs` from barony-rust: the voxel data model
(`Colour`, `VoxelModel`), the bounds-checked grid lookup (`index`, `at`), the
direction metadata (`Direction.step`), the quad geometry (`make_quad`), the
face-culling mesher (`polygonise`) and the binary decoder (`load_model`).

Machine integers are embedded as `Nat` with explicit `% 2^32` (respectively
`% 2^8`) at the operations where Rust's release-mode wrapping semantics can
differ from `Nat` arithmetic: `wrapping_sub`, the `u32` size product in
`load_model`, the `u32` index arithmetic in `index`, and the `u8` left shift
in the palette scaling.  `Vec`/array indexing (`data[i]`, `palette[i]`) is
embedded with `List.getD` (default `0` / black); under the data-length
invariant `data.length = width*height*depth` every such access made by the
code is in range, so the default is never consulted there.  The `f32` vertex
coordinates produced by `make_quad` are always the integer cell corners
`x, x+1, ...`, so vertices are embedded with exact `Nat` coordinates.
-/

namespace Graphics

/-- The modulus `2^32` of Rust `u32` arithmetic. -/
def U32_MOD : Nat := 4294967296

/-- Rust `struct Colour { r: u8, g: u8, b: u8 }`. -/
structure Colour where
  r : Nat
  g : Nat
  b : Nat
deriving DecidableEq, Repr

/-- The constant `Colour::BLACK`. -/
def Colour.BLACK : Colour := { r := 0, g := 0, b := 0 }

/-- Rust `const PALETTE_SIZE : usize = 256`. -/
def PALETTE_SIZE : Nat := 256

/-- Rust `struct VoxelModel` with `u32` dimensions, a 256-entry palette and
the flat `u8` grid. -/
structure VoxelModel where
  width : Nat
  height : Nat
  depth : Nat
  palette : List Colour
  data : List Nat
deriving DecidableEq, Repr

/-- Method `VoxelModel::index`: bounds check, then the row-major (z fastest) flat
index `z + y*depth + x*height*depth`, computed in `u32` arithmetic (each
product and the sum wrap modulo `2^32` in release builds). -/
def VoxelModel.index (m : VoxelModel) (x y z : Nat) : Except Unit Nat :=
  if x ≥ m.width ∨ y ≥ m.height ∨ z ≥ m.depth then
    .error ()
  else
    .ok ((z + y * m.depth % U32_MOD + x * m.height % U32_MOD * m.depth % U32_MOD) % U32_MOD)

/-- Method `VoxelModel::at`: propagate the `index` bounds failure, then read the
stored byte; `255` is the "no voxel" sentinel, any other byte is a palette
index (the source reads `self.data[index]` twice, mirrored here). -/
def VoxelModel.«at» (m : VoxelModel) (x y z : Nat) : Except Unit (Option Colour) :=
  match m.index x y z with
  | .error e => .error e
  | .ok index =>
    let value := m.data.getD index 0
    .ok (if value = 255 then none
         else some (m.palette.getD (m.data.getD index 0) Colour.BLACK))

/-- Rust `enum Direction`. -/
inductive Direction where
  | Up
  | Down
  | East
  | West
  | North
  | South
deriving DecidableEq, Repr

/-- Method `Direction::step`: the neighbor coordinate one unit in this direction, in
`u32` arithmetic — the decrements are `wrapping_sub(1)`, i.e. `+ (2^32 - 1)`
modulo `2^32`, and the increments also wrap on overflow in release builds. -/
def Direction.step (d : Direction) (x y z : Nat) : Nat × Nat × Nat :=
  match d with
  | .Up => (x, (y + 1) % U32_MOD, z)
  | .Down => (x, (y + (U32_MOD - 1)) % U32_MOD, z)
  | .East => ((x + 1) % U32_MOD, y, z)
  | .West => ((x + (U32_MOD - 1)) % U32_MOD, y, z)
  | .North => (x, y, (z + 1) % U32_MOD)
  | .South => (x, y, (z + (U32_MOD - 1)) % U32_MOD)

/-- Rust `struct Vertex` of three `f32` coordinates; every vertex the program builds has
small integer coordinates (cell corners), embedded exactly as `Nat`. -/
structure Vertex where
  x : Nat
  y : Nat
  z : Nat
deriving DecidableEq, Repr

/-- Function `make_quad`: the four-vertex template of the face of cell `(x,y,z)` on
side `side` (the source computes `x1 = x + 1` etc. in `u32`; for in-range
cells of a `u32`-dimensioned grid these increments cannot overflow). -/
def make_quad (side : Direction) (x y z : Nat) : List Vertex :=
  let x1 := x + 1
  let y1 := y + 1
  let z1 := z + 1
  match side with
  | .Up => [⟨x, y1, z⟩, ⟨x1, y1, z⟩, ⟨x1, y1, z1⟩, ⟨x, y1, z1⟩]
  | .Down => [⟨x, y, z⟩, ⟨x, y, z1⟩, ⟨x1, y, z1⟩, ⟨x1, y, z⟩]
  | .East => [⟨x1, y, z⟩, ⟨x1, y, z1⟩, ⟨x1, y1, z1⟩, ⟨x1, y1, z⟩]
  | .West => [⟨x, y, z⟩, ⟨x, y1, z⟩, ⟨x, y1, z1⟩, ⟨x, y, z1⟩]
  | .North => [⟨x, y, z1⟩, ⟨x, y1, z1⟩, ⟨x1, y1, z1⟩, ⟨x1, y, z1⟩]
  | .South => [⟨x, y, z⟩, ⟨x1, y, z⟩, ⟨x1, y1, z⟩, ⟨x, y1, z⟩]

/-- Rust `struct Quad`: four vertices, a colour and the outward side. -/
structure Quad where
  vertices : List Vertex
  colour : Colour
  side : Direction
deriving DecidableEq, Repr

/-- The `add_quad` closure of `VoxelModel::polygonise`: look the cell up, and
if it is solid and the neighbor in front of the face is neither solid nor
in range, push the face quad onto the layer.  (The source `expect`s the cell
lookup — a panic on out-of-range cells, which the traversal never produces;
the panic branch is embedded as leaving the layer unchanged.) -/
def add_quad (m : VoxelModel) (layer : List Quad) (dir : Direction) (x y z : Nat) :
    List Quad :=
  match m.«at» x y z with
  | .error _ => layer
  | .ok none => layer
  | .ok (some c) =>
    let neigh_pos := dir.step x y z
    let neigh := m.«at» neigh_pos.1 neigh_pos.2.1 neigh_pos.2.2
    if (match neigh with | .error _ => none | .ok v => v).isSome then layer
    else layer ++ [{ vertices := make_quad dir x y z, colour := c, side := dir }]

/-- Method `VoxelModel::polygonise`: three axis-pair passes — `(East, West)` sliced
by `x`, `(Up, Down)` sliced by `y`, `(North, South)` sliced by `z` — each
slice accumulating its two per-direction layers with `add_quad` and then
appending them (east/up/north layer first) to the result. -/
def VoxelModel.polygonise (m : VoxelModel) : List Quad :=
  let resultX := (List.range m.width).foldl (fun result x =>
    let layers := (List.range m.height).foldl (fun p y =>
      (List.range m.depth).foldl (fun q z =>
        (add_quad m q.1 Direction.East x y z, add_quad m q.2 Direction.West x y z)) p)
      ([], [])
    result ++ layers.1 ++ layers.2) []
  let resultY := (List.range m.height).foldl (fun result y =>
    let layers := (List.range m.width).foldl (fun p x =>
      (List.range m.depth).foldl (fun q z =>
        (add_quad m q.1 Direction.Up x y z, add_quad m q.2 Direction.Down x y z)) p)
      ([], [])
    result ++ layers.1 ++ layers.2) resultX
  (List.range m.depth).foldl (fun result z =>
    let layers := (List.range m.height).foldl (fun p y =>
      (List.range m.width).foldl (fun q x =>
        (add_quad m q.1 Direction.North x y z, add_quad m q.2 Direction.South x y z)) p)
      ([], [])
    result ++ layers.1 ++ layers.2) resultY

/-- Model of `read_u32::<LE>`: four bytes, little endian; fails when the stream is
shorter than four bytes. -/
def readU32LE (s : List Nat) : Except Unit (Nat × List Nat) :=
  match s with
  | b0 :: b1 :: b2 :: b3 :: rest =>
    .ok (b0 + 256 * b1 + 65536 * b2 + 16777216 * b3, rest)
  | _ => .error ()

/-- Model of `read_exact` into a buffer of `n` bytes: fails when fewer than `n` bytes
remain. -/
def readBytes (n : Nat) (s : List Nat) : Except Unit (List Nat × List Nat) :=
  if n ≤ s.length then .ok (s.take n, s.drop n) else .error ()

/-- One palette entry of `load_model`'s loop: read one byte each for `r`,
`g`, `b`, each stored as `byte << 2` in `u8` arithmetic (i.e. `*4 % 256`). -/
def readColour (s : List Nat) : Except Unit (Colour × List Nat) :=
  match s with
  | r :: g :: b :: rest =>
    .ok ({ r := r * 4 % 256, g := g * 4 % 256, b := b * 4 % 256 }, rest)
  | _ => .error ()

/-- The palette loop of `load_model`: `k` entries read in order. -/
def readColours : Nat → List Nat → Except Unit (List Colour × List Nat)
  | 0, s => .ok ([], s)
  | k + 1, s =>
    match readColour s with
    | .error e => .error e
    | .ok (c, s1) =>
      match readColours k s1 with
      | .error e => .error e
      | .ok (cs, s2) => .ok (c :: cs, s2)

/-- Function `load_model`: read `width`, `height`, `depth` as little-endian `u32`,
then `width * height * depth` grid bytes — the size product being computed
in `u32`, hence wrapping modulo `2^32` — then the 256-entry palette.  Any
short read aborts with the error; no partial model is returned. -/
def load_model (s : List Nat) : Except Unit VoxelModel :=
  match readU32LE s with
  | .error e => .error e
  | .ok (width, s1) =>
    match readU32LE s1 with
    | .error e => .error e
    | .ok (height, s2) =>
      match readU32LE s2 with
      | .error e => .error e
      | .ok (depth, s3) =>
        match readBytes (width * height % U32_MOD * depth % U32_MOD) s3 with
        | .error e => .error e
        | .ok (data, s4) =>
          match readColours PALETTE_SIZE s4 with
          | .error e => .error e
          | .ok (palette, _) =>
            .ok { width := width, height := height, depth := depth,
                  palette := palette, data := data }

/-- The in-range predicate used by the bounds checks: all three coordinates
strictly below their dimension. -/
def inBounds (m : VoxelModel) (x y z : Nat) : Prop :=
  x < m.width ∧ y < m.height ∧ z < m.depth

instance (m : VoxelModel) (x y z : Nat) : Decidable (inBounds m x y z) :=
  inferInstanceAs (Decidable (x < m.width ∧ y < m.height ∧ z < m.depth))

/-- A cell is solid when it is in range and its stored byte is not the
sentinel `255`. -/
def solid (m : VoxelModel) (x y z : Nat) : Prop :=
  inBounds m x y z ∧
    m.data.getD (z + y * m.depth + x * m.height * m.depth) 0 ≠ 255

instance (m : VoxelModel) (x y z : Nat) : Decidable (solid m x y z) :=
  inferInstanceAs (Decidable (inBounds m x y z ∧ _ ≠ 255))

/-- A face of cell `(x,y,z)` on side `d` is visible when the cell is solid
and the neighbor one `Direction.step` away is not (out of range or empty). -/
def visibleFace (m : VoxelModel) (d : Direction) (x y z : Nat) : Prop :=
  solid m x y z ∧
    ¬ solid m (d.step x y z).1 (d.step x y z).2.1 (d.step x y z).2.2

instance (m : VoxelModel) (d : Direction) (x y z : Nat) :
    Decidable (visibleFace m d x y z) :=
  inferInstanceAs (Decidable (solid m x y z ∧ ¬ solid m _ _ _))

/-- The flat index of an in-range cell is below the cell count. -/
lemma idx_lt {w h d x y z : Nat} (hx : x < w) (hy : y < h) (hz : z < d) :
    z + y * d + x * (h * d) < w * h * d := by
  have hz' : z + 1 ≤ d := hz
  have hy' : y + 1 ≤ h := hy
  have hx' : x + 1 ≤ w := hx
  have h1 : z + y * d + x * (h * d) + 1 ≤ d + y * d + x * (h * d) := by omega
  have h2 : d + y * d + x * (h * d) = (y + 1) * d + x * (h * d) := by ring
  have h3 : (y + 1) * d + x * (h * d) ≤ h * d + x * (h * d) :=
    Nat.add_le_add_right (Nat.mul_le_mul_right d hy') _
  have h4 : h * d + x * (h * d) = (x + 1) * (h * d) := by ring
  have h5 : (x + 1) * (h * d) ≤ w * (h * d) := Nat.mul_le_mul_right (h * d) hx'
  have h6 : w * (h * d) = w * h * d := by ring
  omega

/-- For a grid whose cell count fits in `u32`, the wrapping `u32` index
arithmetic of `VoxelModel.index` coincides with the exact flat index. -/
lemma index_ok (m : VoxelModel) {x y z : Nat}
    (hwhd : m.width * m.height * m.depth < U32_MOD)
    (hx : x < m.width) (hy : y < m.height) (hz : z < m.depth) :
    m.index x y z = .ok (z + y * m.depth + x * m.height * m.depth) := by
  have hb : z + y * m.depth + x * (m.height * m.depth) <
      m.width * m.height * m.depth := idx_lt hx hy hz
  have h1 : y * m.depth < U32_MOD := by
    have : y * m.depth ≤ z + y * m.depth + x * (m.height * m.depth) := by omega
    omega
  have h2 : x * m.height < U32_MOD := by
    have hd1 : 1 ≤ m.depth := Nat.one_le_iff_ne_zero.mpr (by omega)
    have : x * m.height * 1 ≤ x * m.height * m.depth :=
      Nat.mul_le_mul_left (x * m.height) hd1
    have : x * m.height * m.depth ≤ z + y * m.depth + x * (m.height * m.depth) := by
      have : x * m.height * m.depth = x * (m.height * m.depth) := by ring
      omega
    omega
  have h3 : x * m.height * m.depth < U32_MOD := by
    have : x * m.height * m.depth = x * (m.height * m.depth) := by ring
    omega
  have h4 : z + y * m.depth + x * m.height * m.depth < U32_MOD := by
    have : x * m.height * m.depth = x * (m.height * m.depth) := by ring
    omega
  unfold VoxelModel.index
  rw [if_neg (by omega)]
  rw [Nat.mod_eq_of_lt h1, Nat.mod_eq_of_lt h2, Nat.mod_eq_of_lt h3,
    Nat.mod_eq_of_lt h4]

/-- The bounds check of `index` rejects exactly the out-of-range coordinates. -/
lemma index_error_iff (m : VoxelModel) (x y z : Nat) :
    m.index x y z = .error () ↔ ¬ inBounds m x y z := by
  unfold VoxelModel.index inBounds
  split
  · simp; omega
  · simp; omega

/-- Full characterisation of `VoxelModel.at` on a grid whose cell count fits
in `u32`: out-of-range coordinates fail, in-range ones read the stored byte
at the exact flat index. -/
lemma at_spec (m : VoxelModel) (x y z : Nat)
    (hwhd : m.width * m.height * m.depth < U32_MOD) :
    m.«at» x y z =
      if inBounds m x y z then
        .ok (if m.data.getD (z + y * m.depth + x * m.height * m.depth) 0 = 255
             then none
             else some (m.palette.getD
               (m.data.getD (z + y * m.depth + x * m.height * m.depth) 0)
               Colour.BLACK))
      else .error () := by
  by_cases h : inBounds m x y z
  · obtain ⟨hx, hy, hz⟩ := h
    rw [VoxelModel.«at», index_ok m hwhd hx hy hz, if_pos ⟨hx, hy, hz⟩]
  · rw [VoxelModel.«at», (index_error_iff m x y z).mpr h, if_neg h]

/-- The quads `add_quad` appends for one (cell, direction) pair: zero or one. -/
def emitted (m : VoxelModel) (d : Direction) (x y z : Nat) : List Quad :=
  add_quad m [] d x y z

/-- The closure `add_quad` only ever appends to the end of the layer. -/
lemma add_quad_eq_append (m : VoxelModel) (layer : List Quad) (d : Direction)
    (x y z : Nat) : add_quad m layer d x y z = layer ++ emitted m d x y z := by
  unfold emitted add_quad
  rcases h : m.«at» x y z with e | c
  · simp
  · rcases c with _ | c
    · simp
    · simp only []
      split <;> simp

/-- Evaluation of `emitted` at an in-range cell of a `u32`-sized grid: the
face quad exactly when the face is visible. -/
lemma emitted_eq (m : VoxelModel) (d : Direction) (x y z : Nat)
    (hwhd : m.width * m.height * m.depth < U32_MOD)
    (hx : x < m.width) (hy : y < m.height) (hz : z < m.depth) :
    emitted m d x y z =
      if visibleFace m d x y z then
        [{ vertices := make_quad d x y z,
           colour := m.palette.getD
             (m.data.getD (z + y * m.depth + x * m.height * m.depth) 0)
             Colour.BLACK,
           side := d }]
      else [] := by
  have hin : inBounds m x y z := ⟨hx, hy, hz⟩
  unfold emitted add_quad
  rw [at_spec m x y z hwhd, if_pos hin]
  by_cases hb : m.data.getD (z + y * m.depth + x * m.height * m.depth) 0 = 255
  · rw [if_pos hb]
    have : ¬ visibleFace m d x y z := fun hv => hv.1.2 hb
    simp [this]
  · rw [if_neg hb]
    simp only []
    rw [at_spec m _ _ _ hwhd]
    by_cases hnp : inBounds m (d.step x y z).1 (d.step x y z).2.1 (d.step x y z).2.2
    · rw [if_pos hnp]
      by_cases hnb : m.data.getD ((d.step x y z).2.2 + (d.step x y z).2.1 * m.depth +
          (d.step x y z).1 * m.height * m.depth) 0 = 255
      · rw [if_pos hnb]
        have hv : visibleFace m d x y z :=
          ⟨⟨hin, hb⟩, fun hs => hs.2 hnb⟩
        simp [hv]
      · rw [if_neg hnb]
        have hv : ¬ visibleFace m d x y z := fun hv => hv.2 ⟨hnp, hnb⟩
        simp [hv]
    · rw [if_neg hnp]
      have hv : visibleFace m d x y z := ⟨⟨hin, hb⟩, fun hs => hnp hs.1⟩
      simp [hv]

/-- Inner pass of an `(East, West)`- or `(Up, Down)`-type slice: folding
`add_quad` for two directions over the innermost (`z`) loop accumulates the
per-cell emissions of each direction onto its layer. -/
lemma foldl_step_z (m : VoxelModel) (d1 d2 : Direction) (x y : Nat)
    (l : List Nat) (p : List Quad × List Quad) :
    l.foldl (fun q z => (add_quad m q.1 d1 x y z, add_quad m q.2 d2 x y z)) p =
      (p.1 ++ l.flatMap fun z => emitted m d1 x y z,
       p.2 ++ l.flatMap fun z => emitted m d2 x y z) := by
  induction l generalizing p with
  | nil => simp
  | cons a t ih =>
    rw [List.foldl_cons, ih]
    simp [add_quad_eq_append, List.append_assoc]

/-- Inner pass of a `(North, South)`-type slice: same accumulation, with the
`x` coordinate as the innermost loop. -/
lemma foldl_step_x (m : VoxelModel) (d1 d2 : Direction) (y z : Nat)
    (l : List Nat) (p : List Quad × List Quad) :
    l.foldl (fun q x => (add_quad m q.1 d1 x y z, add_quad m q.2 d2 x y z)) p =
      (p.1 ++ l.flatMap fun x => emitted m d1 x y z,
       p.2 ++ l.flatMap fun x => emitted m d2 x y z) := by
  induction l generalizing p with
  | nil => simp
  | cons a t ih =>
    rw [List.foldl_cons, ih]
    simp [add_quad_eq_append, List.append_assoc]

/-- Middle pass of a slice: folding componentwise appends accumulates the
concatenation of both components. -/
lemma foldl_pair_append {α : Type} (A B : α → List Quad) (l : List α)
    (p : List Quad × List Quad) :
    l.foldl (fun p a => (p.1 ++ A a, p.2 ++ B a)) p =
      (p.1 ++ l.flatMap A, p.2 ++ l.flatMap B) := by
  induction l generalizing p with
  | nil => simp
  | cons a t ih =>
    simp only [List.foldl_cons, List.flatMap_cons, ih, List.append_assoc]

/-- Outer pass over the slices: appending each slice's quads in order. -/
lemma foldl_append_flatMap {α β : Type} (e : α → List β) (l : List α)
    (init : List β) :
    l.foldl (fun acc a => acc ++ e a) init = init ++ l.flatMap e := by
  induction l generalizing init with
  | nil => simp
  | cons a t ih =>
    simp only [List.foldl_cons, List.flatMap_cons, ih, List.append_assoc]

/-- Restructured `polygonise`: the concatenation of the six per-direction
cell traversals, grouped by axis pair and slice exactly as the loops visit
them. -/
lemma polygonise_eq (m : VoxelModel) :
    m.polygonise =
      ((List.range m.width).flatMap fun x =>
        ((List.range m.height).flatMap fun y =>
          (List.range m.depth).flatMap fun z => emitted m .East x y z)
        ++ (List.range m.height).flatMap fun y =>
          (List.range m.depth).flatMap fun z => emitted m .West x y z)
      ++ ((List.range m.height).flatMap fun y =>
        ((List.range m.width).flatMap fun x =>
          (List.range m.depth).flatMap fun z => emitted m .Up x y z)
        ++ (List.range m.width).flatMap fun x =>
          (List.range m.depth).flatMap fun z => emitted m .Down x y z)
      ++ (List.range m.depth).flatMap fun z =>
        ((List.range m.height).flatMap fun y =>
          (List.range m.width).flatMap fun x => emitted m .North x y z)
        ++ (List.range m.height).flatMap fun y =>
          (List.range m.width).flatMap fun x => emitted m .South x y z := by
  unfold VoxelModel.polygonise
  simp only [foldl_step_z, foldl_step_x, foldl_pair_append, List.nil_append,
    List.append_assoc]
  rw [foldl_append_flatMap (fun x =>
      ((List.range m.height).flatMap fun y =>
        (List.range m.depth).flatMap fun z => emitted m .East x y z)
      ++ (List.range m.height).flatMap fun y =>
        (List.range m.depth).flatMap fun z => emitted m .West x y z)]
  rw [foldl_append_flatMap (fun y =>
      ((List.range m.width).flatMap fun x =>
        (List.range m.depth).flatMap fun z => emitted m .Up x y z)
      ++ (List.range m.width).flatMap fun x =>
        (List.range m.depth).flatMap fun z => emitted m .Down x y z)]
  rw [foldl_append_flatMap (fun z =>
      ((List.range m.height).flatMap fun y =>
        (List.range m.width).flatMap fun x => emitted m .North x y z)
      ++ (List.range m.height).flatMap fun y =>
        (List.range m.width).flatMap fun x => emitted m .South x y z)]
  simp [List.append_assoc]

/-- A sum over `List.range n` of a function vanishing away from `i0 < n`
collapses to the value at `i0`. -/
lemma sum_range_ind (g : Nat → Nat) (n i0 : Nat) (hi : i0 < n)
    (h0 : ∀ i, i < n → i ≠ i0 → g i = 0) :
    ((List.range n).map g).sum = g i0 := by
  induction n with
  | zero => omega
  | succ n ih =>
    rw [List.range_succ, List.map_append, List.sum_append]
    by_cases hn : i0 = n
    · subst hn
      have : ((List.range i0).map g).sum = 0 :=
        List.sum_eq_zero (by
          intro v hv
          rw [List.mem_map] at hv
          obtain ⟨i, hi', rfl⟩ := hv
          rw [List.mem_range] at hi'
          exact h0 i (by omega) (by omega))
      simp [this]
    · have hlt : i0 < n := by omega
      rw [ih hlt (fun i h1 h2 => h0 i (by omega) h2)]
      simp [h0 n (by omega) (fun he => hn he.symm)]

/-- A constant sum over `List.range n`. -/
lemma sum_range_const (n c : Nat) : ((List.range n).map fun _ => c).sum = n * c := by
  induction n with
  | zero => simp
  | succ n ih => rw [List.range_succ, List.map_append, List.sum_append]; simp [ih]; ring

/-- Counterexample to C2 as stated: the degenerate grid `0×1×1` has no cells
(`data.length = 0 = 0*1*1`, vacuously no sentinel byte) and `polygonise`
yields no quads, yet `2*(width*height + height*depth + width*depth) = 2`. -/
theorem polygonise_count_C2_cex :
    VoxelModel.polygonise
        { width := 0, height := 1, depth := 1,
          palette := List.replicate 256 Colour.BLACK, data := [] } = [] ∧
    ([] : List Nat).length = 0 * 1 * 1 ∧
    (∀ b ∈ ([] : List Nat), b ≠ 255) ∧
    2 * (0 * 1 + 1 * 1 + 0 * 1) ≠ 0 := by
  refine ⟨by decide, by decide, by simp, by decide⟩

/-- Length distributes over `flatMap` as a sum of per-piece lengths. -/
lemma length_flatMap' {α γ : Type} (l : List γ) (f : γ → List α) :
    (l.flatMap f).length = (l.map fun i => (f i).length).sum := by
  induction l with
  | nil => simp
  | cons a t ih => simp [ih]

/-- Sums over `List.range` agree when the summands agree on the range. -/
lemma sum_range_congr (n : Nat) (g g' : Nat → Nat)
    (h : ∀ i, i < n → g i = g' i) :
    ((List.range n).map g).sum = ((List.range n).map g').sum :=
  congrArg List.sum (List.map_congr_left fun i hi => h i (List.mem_range.mp hi))

/-- A doubly nested range sum of a function constant on the range. -/
lemma sum2_eval (n2 n3 : Nat) (g : Nat → Nat → Nat) (c : Nat)
    (h : ∀ j, j < n2 → ∀ k, k < n3 → g j k = c) :
    ((List.range n2).map fun j =>
      ((List.range n3).map fun k => g j k).sum).sum = n2 * (n3 * c) := by
  rw [sum_range_congr n2 _ (fun _ => n3 * c) (fun j hj => by
    rw [sum_range_congr n3 _ (fun _ => c) (fun k hk => h j hj k hk),
      sum_range_const])]
  rw [sum_range_const]

/-- A range sum of a pointwise addition splits. -/
lemma sum_range_add (n : Nat) (f g : Nat → Nat) :
    ((List.range n).map fun i => f i + g i).sum =
      ((List.range n).map f).sum + ((List.range n).map g).sum := by
  induction n with
  | zero => simp
  | succ n ih =>
    rw [List.range_succ]
    simp only [List.map_append, List.sum_append, ih, List.map_cons,
      List.map_nil, List.sum_cons, List.sum_nil]
    omega

/-- C2 as amended: on a grid with all three dimensions positive, a sentinel-
free (fully solid) grid meshes to exactly the bounding-box surface area,
`2*(width*height + height*depth + width*depth)` quads. -/
theorem polygonise_count_C2 (m : VoxelModel)
    (hlen : m.data.length = m.width * m.height * m.depth)
    (hwhd : m.width * m.height * m.depth < U32_MOD)
    (hw : 0 < m.width) (hh : 0 < m.height) (hd : 0 < m.depth)
    (hsolid : ∀ b ∈ m.data, b ≠ 255) :
    m.polygonise.length =
      2 * (m.width * m.height + m.height * m.depth + m.width * m.depth) := by
  have hcell : ∀ i j k : Nat, i < m.width → j < m.height → k < m.depth →
      m.data.getD (k + j * m.depth + i * m.height * m.depth) 0 ≠ 255 := by
    intro i j k hi hj hk
    have hlt : k + j * m.depth + i * (m.height * m.depth) <
        m.width * m.height * m.depth := idx_lt hi hj hk
    have hlt' : k + j * m.depth + i * m.height * m.depth < m.data.length := by
      rw [hlen]
      have : i * m.height * m.depth = i * (m.height * m.depth) := by ring
      omega
    rw [List.getD_eq_getElem?_getD, List.getElem?_eq_getElem hlt']
    exact hsolid _ (List.getElem_mem hlt')
  have hemit : ∀ (d : Direction), ∀ i j k : Nat,
      i < m.width → j < m.height → k < m.depth →
      (emitted m d i j k).length =
        if inBounds m (d.step i j k).1 (d.step i j k).2.1 (d.step i j k).2.2
        then 0 else 1 := by
    intro d i j k hi hj hk
    rw [emitted_eq m d i j k hwhd hi hj hk]
    by_cases hnb : inBounds m (d.step i j k).1 (d.step i j k).2.1 (d.step i j k).2.2
    · have hns : solid m (d.step i j k).1 (d.step i j k).2.1 (d.step i j k).2.2 :=
        ⟨hnb, hcell _ _ _ hnb.1 hnb.2.1 hnb.2.2⟩
      have : ¬ visibleFace m d i j k := fun hv => hv.2 hns
      simp [this, hnb]
    · have hv : visibleFace m d i j k :=
        ⟨⟨⟨hi, hj, hk⟩, hcell i j k hi hj hk⟩, fun hs => hnb hs.1⟩
      simp [hv, hnb]
  have hwle : m.width ≤ m.width * m.height * m.depth := by
    calc m.width = m.width * 1 * 1 := by ring
      _ ≤ m.width * m.height * m.depth :=
        Nat.mul_le_mul (Nat.mul_le_mul_left m.width hh) hd
  have hhle : m.height ≤ m.width * m.height * m.depth := by
    calc m.height = 1 * m.height * 1 := by ring
      _ ≤ m.width * m.height * m.depth :=
        Nat.mul_le_mul (Nat.mul_le_mul_right m.height hw) hd
  have hdle : m.depth ≤ m.width * m.height * m.depth := by
    calc m.depth = 1 * 1 * m.depth := by ring
      _ ≤ m.width * m.height * m.depth :=
        Nat.mul_le_mul_right m.depth (Nat.mul_le_mul hw hh)
  have hEast : ((List.range m.width).map fun x =>
      ((List.range m.height).map fun y =>
        ((List.range m.depth).map fun z =>
          (emitted m Direction.East x y z).length).sum).sum).sum =
      m.height * m.depth := by
    refine (sum_range_ind _ m.width (m.width - 1) (by omega) ?_).trans ?_
    · intro i hi hne
      refine (sum2_eval m.height m.depth _ 0 ?_).trans (by ring)
      intro j hj k hk
      rw [hemit Direction.East i j k hi hj hk]
      have hmod : (i + 1) % U32_MOD = i + 1 := Nat.mod_eq_of_lt (by omega)
      simp only [Direction.step, hmod]
      rw [if_pos ⟨by omega, hj, hk⟩]
    · refine (sum2_eval m.height m.depth _ 1 ?_).trans (by ring)
      intro j hj k hk
      rw [hemit Direction.East (m.width - 1) j k (by omega) hj hk]
      have hmod : (m.width - 1 + 1) % U32_MOD = m.width := by
        have he : m.width - 1 + 1 = m.width := by omega
        rw [he, Nat.mod_eq_of_lt (by omega)]
      simp only [Direction.step, hmod]
      rw [if_neg (fun hc => absurd hc.1 (Nat.lt_irrefl m.width))]
  have hWest : ((List.range m.width).map fun x =>
      ((List.range m.height).map fun y =>
        ((List.range m.depth).map fun z =>
          (emitted m Direction.West x y z).length).sum).sum).sum =
      m.height * m.depth := by
    refine (sum_range_ind _ m.width 0 (by omega) ?_).trans ?_
    · intro i hi hne
      refine (sum2_eval m.height m.depth _ 0 ?_).trans (by ring)
      intro j hj k hk
      rw [hemit Direction.West i j k hi hj hk]
      have hmod : (i + (U32_MOD - 1)) % U32_MOD = i - 1 := by
        have h1 : i < U32_MOD := by omega
        have h2 : 1 ≤ i := by omega
        rw [show U32_MOD = 4294967296 from rfl] at h1 ⊢
        omega
      simp only [Direction.step, hmod]
      rw [if_pos ⟨by omega, hj, hk⟩]
    · refine (sum2_eval m.height m.depth _ 1 ?_).trans (by ring)
      intro j hj k hk
      rw [hemit Direction.West 0 j k (by omega) hj hk]
      have hmod : (0 + (U32_MOD - 1)) % U32_MOD = U32_MOD - 1 := by
        rw [show U32_MOD = 4294967296 from rfl]
      simp only [Direction.step, hmod]
      rw [if_neg (fun hc => absurd hc.1 (by omega))]
  have hUp : ((List.range m.height).map fun y =>
      ((List.range m.width).map fun x =>
        ((List.range m.depth).map fun z =>
          (emitted m Direction.Up x y z).length).sum).sum).sum =
      m.width * m.depth := by
    refine (sum_range_ind _ m.height (m.height - 1) (by omega) ?_).trans ?_
    · intro i hi hne
      refine (sum2_eval m.width m.depth _ 0 ?_).trans (by ring)
      intro j hj k hk
      rw [hemit Direction.Up j i k hj hi hk]
      have hmod : (i + 1) % U32_MOD = i + 1 := Nat.mod_eq_of_lt (by omega)
      simp only [Direction.step, hmod]
      rw [if_pos ⟨hj, by omega, hk⟩]
    · refine (sum2_eval m.width m.depth _ 1 ?_).trans (by ring)
      intro j hj k hk
      rw [hemit Direction.Up j (m.height - 1) k hj (by omega) hk]
      have hmod : (m.height - 1 + 1) % U32_MOD = m.height := by
        have he : m.height - 1 + 1 = m.height := by omega
        rw [he, Nat.mod_eq_of_lt (by omega)]
      simp only [Direction.step, hmod]
      rw [if_neg (fun hc => absurd hc.2.1 (Nat.lt_irrefl m.height))]
  have hDown : ((List.range m.height).map fun y =>
      ((List.range m.width).map fun x =>
        ((List.range m.depth).map fun z =>
          (emitted m Direction.Down x y z).length).sum).sum).sum =
      m.width * m.depth := by
    refine (sum_range_ind _ m.height 0 (by omega) ?_).trans ?_
    · intro i hi hne
      refine (sum2_eval m.width m.depth _ 0 ?_).trans (by ring)
      intro j hj k hk
      rw [hemit Direction.Down j i k hj hi hk]
      have hmod : (i + (U32_MOD - 1)) % U32_MOD = i - 1 := by
        have h1 : i < U32_MOD := by omega
        have h2 : 1 ≤ i := by omega
        rw [show U32_MOD = 4294967296 from rfl] at h1 ⊢
        omega
      simp only [Direction.step, hmod]
      rw [if_pos ⟨hj, by omega, hk⟩]
    · refine (sum2_eval m.width m.depth _ 1 ?_).trans (by ring)
      intro j hj k hk
      rw [hemit Direction.Down j 0 k hj (by omega) hk]
      have hmod : (0 + (U32_MOD - 1)) % U32_MOD = U32_MOD - 1 := by
        rw [show U32_MOD = 4294967296 from rfl]
      simp only [Direction.step, hmod]
      rw [if_neg (fun hc => absurd hc.2.1 (by omega))]
  have hNorth : ((List.range m.depth).map fun z =>
      ((List.range m.height).map fun y =>
        ((List.range m.width).map fun x =>
          (emitted m Direction.North x y z).length).sum).sum).sum =
      m.height * m.width := by
    refine (sum_range_ind _ m.depth (m.depth - 1) (by omega) ?_).trans ?_
    · intro i hi hne
      refine (sum2_eval m.height m.width _ 0 ?_).trans (by ring)
      intro j hj k hk
      rw [hemit Direction.North k j i hk hj hi]
      have hmod : (i + 1) % U32_MOD = i + 1 := Nat.mod_eq_of_lt (by omega)
      simp only [Direction.step, hmod]
      rw [if_pos ⟨hk, hj, by omega⟩]
    · refine (sum2_eval m.height m.width _ 1 ?_).trans (by ring)
      intro j hj k hk
      rw [hemit Direction.North k j (m.depth - 1) hk hj (by omega)]
      have hmod : (m.depth - 1 + 1) % U32_MOD = m.depth := by
        have he : m.depth - 1 + 1 = m.depth := by omega
        rw [he, Nat.mod_eq_of_lt (by omega)]
      simp only [Direction.step, hmod]
      rw [if_neg (fun hc => absurd hc.2.2 (Nat.lt_irrefl m.depth))]
  have hSouth : ((List.range m.depth).map fun z =>
      ((List.range m.height).map fun y =>
        ((List.range m.width).map fun x =>
          (emitted m Direction.South x y z).length).sum).sum).sum =
      m.height * m.width := by
    refine (sum_range_ind _ m.depth 0 (by omega) ?_).trans ?_
    · intro i hi hne
      refine (sum2_eval m.height m.width _ 0 ?_).trans (by ring)
      intro j hj k hk
      rw [hemit Direction.South k j i hk hj hi]
      have hmod : (i + (U32_MOD - 1)) % U32_MOD = i - 1 := by
        have h1 : i < U32_MOD := by omega
        have h2 : 1 ≤ i := by omega
        rw [show U32_MOD = 4294967296 from rfl] at h1 ⊢
        omega
      simp only [Direction.step, hmod]
      rw [if_pos ⟨hk, hj, by omega⟩]
    · refine (sum2_eval m.height m.width _ 1 ?_).trans (by ring)
      intro j hj k hk
      rw [hemit Direction.South k j 0 hk hj (by omega)]
      have hmod : (0 + (U32_MOD - 1)) % U32_MOD = U32_MOD - 1 := by
        rw [show U32_MOD = 4294967296 from rfl]
      simp only [Direction.step, hmod]
      rw [if_neg (fun hc => absurd hc.2.2 (by omega))]
  rw [polygonise_eq]
  simp only [List.length_append, length_flatMap']
  rw [sum_range_add m.width, sum_range_add m.height, sum_range_add m.depth]
  rw [hEast, hWest, hUp, hDown, hNorth, hSouth]
  ring

/-- Witness for the amended C2 on a concrete fully solid 1×1×1 grid. -/
theorem polygonise_count_C2_witness :
    (([0] : List Nat).length = 1 * 1 * 1 ∧ 1 * 1 * 1 < U32_MOD ∧
      (0 : Nat) < 1 ∧ (∀ b ∈ ([0] : List Nat), b ≠ 255)) ∧
    (VoxelModel.polygonise
        { width := 1, height := 1, depth := 1,
          palette := List.replicate 256 Colour.BLACK, data := [0] }).length =
      2 * (1 * 1 + 1 * 1 + 1 * 1) :=
  ⟨⟨by decide, by decide, by decide, by decide⟩,
    polygonise_count_C2
      { width := 1, height := 1, depth := 1,
        palette := List.replicate 256 Colour.BLACK, data := [0] }
      (by decide) (by decide) (by decide) (by decide) (by decide) (by decide)⟩

/-- Splitting off a multiple of `k` from a sum with remainder below `k` is
unique in both components. -/
lemma addMulInj {k a b a' b' : Nat} (ha : a < k) (ha' : a' < k)
    (h : a + b * k = a' + b' * k) : a = a' ∧ b = b' := by
  have hm := congrArg (· % k) h
  simp only [Nat.add_mul_mod_self_right] at hm
  rw [Nat.mod_eq_of_lt ha, Nat.mod_eq_of_lt ha'] at hm
  refine ⟨hm, ?_⟩
  have hbk : b * k = b' * k := by omega
  exact Nat.eq_of_mul_eq_mul_right (by omega) hbk

/-- C3: on a `u32`-representable grid, `index` evaluates to the exact flat
index `z + y*depth + x*height*depth`, that value lies below
`width*height*depth`, the map is injective over in-range coordinates, and
every `n < width*height*depth` is hit by the in-range coordinate
`(n / (height*depth), n % (height*depth) / depth, n % depth)`. -/
theorem index_C3 (m : VoxelModel) (x1 y1 z1 x2 y2 z2 n : Nat)
    (hwhd : m.width * m.height * m.depth < U32_MOD)
    (h1 : x1 < m.width) (h2 : y1 < m.height) (h3 : z1 < m.depth)
    (h4 : x2 < m.width) (h5 : y2 < m.height) (h6 : z2 < m.depth)
    (hn : n < m.width * m.height * m.depth) :
    m.index x1 y1 z1 = .ok (z1 + y1 * m.depth + x1 * m.height * m.depth)
    ∧ z1 + y1 * m.depth + x1 * m.height * m.depth <
        m.width * m.height * m.depth
    ∧ (m.index x1 y1 z1 = m.index x2 y2 z2 →
        x1 = x2 ∧ y1 = y2 ∧ z1 = z2)
    ∧ n / (m.height * m.depth) < m.width
    ∧ n % (m.height * m.depth) / m.depth < m.height
    ∧ n % m.depth < m.depth
    ∧ m.index (n / (m.height * m.depth)) (n % (m.height * m.depth) / m.depth)
        (n % m.depth) = .ok n := by
  have hd0 : 0 < m.depth := by omega
  have hh0 : 0 < m.height := by omega
  have hhd : 0 < m.height * m.depth := Nat.mul_pos hh0 hd0
  have hb1 : z1 + y1 * m.depth + x1 * (m.height * m.depth) <
      m.width * m.height * m.depth := idx_lt h1 h2 h3
  refine ⟨index_ok m hwhd h1 h2 h3, ?_, ?_, ?_, ?_, ?_, ?_⟩
  · have e : x1 * m.height * m.depth = x1 * (m.height * m.depth) := by ring
    omega
  · intro heq
    rw [index_ok m hwhd h1 h2 h3, index_ok m hwhd h4 h5 h6] at heq
    simp only [Except.ok.injEq] at heq
    have e1 : z1 + y1 * m.depth + x1 * m.height * m.depth =
        z1 + (y1 + x1 * m.height) * m.depth := by ring
    have e2 : z2 + y2 * m.depth + x2 * m.height * m.depth =
        z2 + (y2 + x2 * m.height) * m.depth := by ring
    rw [e1, e2] at heq
    obtain ⟨hz, hyx⟩ := addMulInj h3 h6 heq
    obtain ⟨hy, hx⟩ := addMulInj h2 h5 hyx
    exact ⟨hx, hy, hz⟩
  · exact (Nat.div_lt_iff_lt_mul hhd).mpr (by
      have e : m.width * (m.height * m.depth) = m.width * m.height * m.depth := by
        ring
      omega)
  · exact (Nat.div_lt_iff_lt_mul hd0).mpr (Nat.mod_lt n hhd)
  · exact Nat.mod_lt n hd0
  · rw [index_ok m hwhd ((Nat.div_lt_iff_lt_mul hhd).mpr (by
        have e : m.width * (m.height * m.depth) = m.width * m.height * m.depth := by
          ring
        omega))
      ((Nat.div_lt_iff_lt_mul hd0).mpr (Nat.mod_lt n hhd))
      (Nat.mod_lt n hd0)]
    have e3 : n % (m.height * m.depth) % m.depth = n % m.depth :=
      Nat.mod_mod_of_dvd n ⟨m.height, by ring⟩
    have s1 : n % m.depth + n % (m.height * m.depth) / m.depth * m.depth =
        n % (m.height * m.depth) := by
      rw [← e3]
      exact Nat.mod_add_div' (n % (m.height * m.depth)) m.depth
    have s2 : n % (m.height * m.depth) +
        n / (m.height * m.depth) * (m.height * m.depth) = n :=
      Nat.mod_add_div' n (m.height * m.depth)
    have key : n % m.depth + n % (m.height * m.depth) / m.depth * m.depth +
        n / (m.height * m.depth) * m.height * m.depth = n := by
      calc n % m.depth + n % (m.height * m.depth) / m.depth * m.depth +
          n / (m.height * m.depth) * m.height * m.depth
          = (n % m.depth + n % (m.height * m.depth) / m.depth * m.depth) +
            n / (m.height * m.depth) * (m.height * m.depth) := by ring
        _ = n % (m.height * m.depth) +
            n / (m.height * m.depth) * (m.height * m.depth) := by rw [s1]
        _ = n := s2
    exact congrArg Except.ok key

/-- Witness for C3 on a concrete 2×3×4 grid at `(1,2,3)`, `(0,1,2)`, `n = 17`. -/
theorem index_C3_witness :
    (2 * 3 * 4 < U32_MOD ∧ (1 : Nat) < 2 ∧ (2 : Nat) < 3 ∧ (3 : Nat) < 4 ∧
      (0 : Nat) < 2 ∧ (1 : Nat) < 3 ∧ (2 : Nat) < 4 ∧ (17 : Nat) < 2 * 3 * 4) ∧
    (VoxelModel.index
        { width := 2, height := 3, depth := 4,
          palette := List.replicate 256 Colour.BLACK, data := List.replicate 24 0 }
        1 2 3 = .ok (3 + 2 * 4 + 1 * 3 * 4)
    ∧ 3 + 2 * 4 + 1 * 3 * 4 < 2 * 3 * 4
    ∧ (VoxelModel.index
          { width := 2, height := 3, depth := 4,
            palette := List.replicate 256 Colour.BLACK,
            data := List.replicate 24 0 } 1 2 3 =
        VoxelModel.index
          { width := 2, height := 3, depth := 4,
            palette := List.replicate 256 Colour.BLACK,
            data := List.replicate 24 0 } 0 1 2 →
        (1 : Nat) = 0 ∧ (2 : Nat) = 1 ∧ (3 : Nat) = 2)
    ∧ 17 / (3 * 4) < 2
    ∧ 17 % (3 * 4) / 4 < 3
    ∧ 17 % 4 < 4
    ∧ VoxelModel.index
        { width := 2, height := 3, depth := 4,
          palette := List.replicate 256 Colour.BLACK, data := List.replicate 24 0 }
        (17 / (3 * 4)) (17 % (3 * 4) / 4) (17 % 4) = .ok 17) :=
  ⟨⟨by decide, by decide, by decide, by decide, by decide, by decide, by decide,
      by decide⟩,
    index_C3
      { width := 2, height := 3, depth := 4,
        palette := List.replicate 256 Colour.BLACK, data := List.replicate 24 0 }
      1 2 3 0 1 2 17 (by decide) (by decide) (by decide) (by decide) (by decide)
      (by decide) (by decide) (by decide)⟩

/-- C4: `at` fails (with the out-of-bounds error) exactly when a coordinate
reaches its dimension; on in-range coordinates it never fails, returning
`none` for the sentinel byte `255` and the palette colour of the stored byte
otherwise. -/
theorem at_C4 (m : VoxelModel) (x y z : Nat)
    (hlen : m.data.length = m.width * m.height * m.depth)
    (hwhd : m.width * m.height * m.depth < U32_MOD) :
    (m.«at» x y z = .error () ↔
      (m.width ≤ x ∨ m.height ≤ y ∨ m.depth ≤ z))
    ∧ (x < m.width → y < m.height → z < m.depth →
        m.«at» x y z =
          .ok (if m.data.getD (z + y * m.depth + x * m.height * m.depth) 0 = 255
               then none
               else some (m.palette.getD
                 (m.data.getD (z + y * m.depth + x * m.height * m.depth) 0)
                 Colour.BLACK))) := by
  constructor
  · rw [at_spec m x y z hwhd]
    by_cases h : inBounds m x y z
    · rw [if_pos h]
      obtain ⟨hx, hy, hz⟩ := h
      simp
      omega
    · rw [if_neg h]
      simp only [inBounds, not_and_or, not_lt] at h
      simp
      omega
  · intro hx hy hz
    rw [at_spec m x y z hwhd, if_pos ⟨hx, hy, hz⟩]

/-- Witness for C4 on a concrete 1×1×1 grid. -/
theorem at_C4_witness :
    (([7] : List Nat).length = 1 * 1 * 1 ∧ 1 * 1 * 1 < U32_MOD) ∧
    ((VoxelModel.«at»
        { width := 1, height := 1, depth := 1,
          palette := List.replicate 256 Colour.BLACK, data := [7] } 0 0 0 =
          .error () ↔ ((1 : Nat) ≤ 0 ∨ (1 : Nat) ≤ 0 ∨ (1 : Nat) ≤ 0))
    ∧ ((0 : Nat) < 1 → (0 : Nat) < 1 → (0 : Nat) < 1 →
        VoxelModel.«at»
          { width := 1, height := 1, depth := 1,
            palette := List.replicate 256 Colour.BLACK, data := [7] } 0 0 0 =
          .ok (if ([7] : List Nat).getD (0 + 0 * 1 + 0 * 1 * 1) 0 = 255
               then none
               else some ((List.replicate 256 Colour.BLACK).getD
                 (([7] : List Nat).getD (0 + 0 * 1 + 0 * 1 * 1) 0)
                 Colour.BLACK)))) :=
  ⟨⟨by decide, by decide⟩,
    at_C4
      { width := 1, height := 1, depth := 1,
        palette := List.replicate 256 Colour.BLACK, data := [7] }
      0 0 0 (by decide) (by decide)⟩

/-- Cell `(x,y,z)` lies on the outer boundary face of the grid that
direction `d` points at. -/
def boundaryFacing (m : VoxelModel) (d : Direction) (x y z : Nat) : Prop :=
  match d with
  | .East => x + 1 = m.width
  | .West => x = 0
  | .Up => y + 1 = m.height
  | .Down => y = 0
  | .North => z + 1 = m.depth
  | .South => z = 0

/-- C5: for a solid cell on the outer boundary toward `d`, the stepped
neighbor coordinate (including the wrapped value `2^32 - 1` obtained by
decrementing 0) is always rejected by the bounds check — `at` fails rather
than aliasing any cell — so the boundary-facing quad is always emitted. -/
theorem step_boundary_C5 (m : VoxelModel) (d : Direction) (x y z : Nat)
    (hwhd : m.width * m.height * m.depth < U32_MOD)
    (hx : x < m.width) (hy : y < m.height) (hz : z < m.depth)
    (hsolid : m.data.getD (z + y * m.depth + x * m.height * m.depth) 0 ≠ 255)
    (hb : boundaryFacing m d x y z) :
    ¬ inBounds m (d.step x y z).1 (d.step x y z).2.1 (d.step x y z).2.2
    ∧ m.«at» (d.step x y z).1 (d.step x y z).2.1 (d.step x y z).2.2 =
        .error ()
    ∧ emitted m d x y z =
        [{ vertices := make_quad d x y z,
           colour := m.palette.getD
             (m.data.getD (z + y * m.depth + x * m.height * m.depth) 0)
             Colour.BLACK,
           side := d }] := by
  have hwle : m.width ≤ m.width * m.height * m.depth := by
    calc m.width = m.width * 1 * 1 := by ring
      _ ≤ m.width * m.height * m.depth :=
        Nat.mul_le_mul (Nat.mul_le_mul_left m.width (by omega)) (by omega)
  have hhle : m.height ≤ m.width * m.height * m.depth := by
    calc m.height = 1 * m.height * 1 := by ring
      _ ≤ m.width * m.height * m.depth :=
        Nat.mul_le_mul (Nat.mul_le_mul_right m.height (by omega)) (by omega)
  have hdle : m.depth ≤ m.width * m.height * m.depth := by
    calc m.depth = 1 * 1 * m.depth := by ring
      _ ≤ m.width * m.height * m.depth :=
        Nat.mul_le_mul_right m.depth (Nat.mul_le_mul (by omega) (by omega))
  have hnb : ¬ inBounds m (d.step x y z).1 (d.step x y z).2.1
      (d.step x y z).2.2 := by
    cases d with
    | East =>
      simp only [boundaryFacing] at hb
      have hmod : (x + 1) % U32_MOD = x + 1 := Nat.mod_eq_of_lt (by omega)
      simp only [Direction.step, hmod]
      intro hc
      exact absurd hc.1 (by omega)
    | West =>
      simp only [boundaryFacing] at hb
      subst hb
      have hmod : (0 + (U32_MOD - 1)) % U32_MOD = U32_MOD - 1 := by
        rw [show U32_MOD = 4294967296 from rfl]
      simp only [Direction.step, hmod]
      intro hc
      exact absurd hc.1 (by omega)
    | Up =>
      simp only [boundaryFacing] at hb
      have hmod : (y + 1) % U32_MOD = y + 1 := Nat.mod_eq_of_lt (by omega)
      simp only [Direction.step, hmod]
      intro hc
      exact absurd hc.2.1 (by omega)
    | Down =>
      simp only [boundaryFacing] at hb
      subst hb
      have hmod : (0 + (U32_MOD - 1)) % U32_MOD = U32_MOD - 1 := by
        rw [show U32_MOD = 4294967296 from rfl]
      simp only [Direction.step, hmod]
      intro hc
      exact absurd hc.2.1 (by omega)
    | North =>
      simp only [boundaryFacing] at hb
      have hmod : (z + 1) % U32_MOD = z + 1 := Nat.mod_eq_of_lt (by omega)
      simp only [Direction.step, hmod]
      intro hc
      exact absurd hc.2.2 (by omega)
    | South =>
      simp only [boundaryFacing] at hb
      subst hb
      have hmod : (0 + (U32_MOD - 1)) % U32_MOD = U32_MOD - 1 := by
        rw [show U32_MOD = 4294967296 from rfl]
      simp only [Direction.step, hmod]
      intro hc
      exact absurd hc.2.2 (by omega)
  refine ⟨hnb, ?_, ?_⟩
  · rw [at_spec m _ _ _ hwhd, if_neg hnb]
  · rw [emitted_eq m d x y z hwhd hx hy hz,
      if_pos ⟨⟨⟨hx, hy, hz⟩, hsolid⟩, fun hs => hnb hs.1⟩]

/-- Witness for C5: the west face of the single cell of a 1×1×1 solid grid. -/
theorem step_boundary_C5_witness :
    (1 * 1 * 1 < U32_MOD ∧ (0 : Nat) < 1 ∧
      ([0] : List Nat).getD (0 + 0 * 1 + 0 * 1 * 1) 0 ≠ 255 ∧
      boundaryFacing
        { width := 1, height := 1, depth := 1,
          palette := List.replicate 256 Colour.BLACK, data := [0] }
        Direction.West 0 0 0) ∧
    (¬ inBounds
        { width := 1, height := 1, depth := 1,
          palette := List.replicate 256 Colour.BLACK, data := [0] }
        (Direction.West.step 0 0 0).1 (Direction.West.step 0 0 0).2.1
        (Direction.West.step 0 0 0).2.2
    ∧ VoxelModel.«at»
        { width := 1, height := 1, depth := 1,
          palette := List.replicate 256 Colour.BLACK, data := [0] }
        (Direction.West.step 0 0 0).1 (Direction.West.step 0 0 0).2.1
        (Direction.West.step 0 0 0).2.2 = .error ()
    ∧ emitted
        { width := 1, height := 1, depth := 1,
          palette := List.replicate 256 Colour.BLACK, data := [0] }
        Direction.West 0 0 0 =
        [{ vertices := make_quad Direction.West 0 0 0,
           colour := (List.replicate 256 Colour.BLACK).getD
             (([0] : List Nat).getD (0 + 0 * 1 + 0 * 1 * 1) 0) Colour.BLACK,
           side := Direction.West }]) :=
  ⟨⟨by decide, by decide, by decide, rfl⟩,
    step_boundary_C5
      { width := 1, height := 1, depth := 1,
        palette := List.replicate 256 Colour.BLACK, data := [0] }
      Direction.West 0 0 0 (by decide) (by decide) (by decide) (by decide)
      (by decide) rfl⟩

/-- The little-endian `u32` value of the first four bytes of a stream. -/
def val4 (s : List Nat) : Nat :=
  s.getD 0 0 + 256 * s.getD 1 0 + 65536 * s.getD 2 0 + 16777216 * s.getD 3 0

/-- The four little-endian bytes of a `u32` value. -/
def le4 (n : Nat) : List Nat :=
  [n % 256, n / 256 % 256, n / 65536 % 256, n / 16777216 % 256]

/-- The number of grid bytes `load_model` reads from a stream: the `u32`
product (wrapping modulo `2^32`) of the three header fields. -/
def gridLen (s : List Nat) : Nat :=
  val4 s * val4 (s.drop 4) % U32_MOD * val4 (s.drop 8) % U32_MOD

/-- The palette decoded from a byte stream: `k` entries of three consecutive
bytes each, every channel scaled by 4 in `u8` arithmetic. -/
def colourList : Nat → List Nat → List Colour
  | 0, _ => []
  | k + 1, s =>
    { r := s.getD 0 0 * 4 % 256, g := s.getD 1 0 * 4 % 256,
      b := s.getD 2 0 * 4 % 256 } :: colourList k (s.drop 3)

/-- Reading a `u32` fails below four bytes and otherwise consumes exactly four. -/
lemma readU32LE_eq (s : List Nat) :
    readU32LE s =
      if s.length < 4 then .error () else .ok (val4 s, s.drop 4) := by
  rcases s with _ | ⟨a, _ | ⟨b, _ | ⟨c, _ | ⟨e, t⟩⟩⟩⟩ <;>
    simp [readU32LE, val4] <;>
    rw [if_neg (by omega)]

/-- Entry `i` of the decoded palette is built from stream bytes `3i`,
`3i+1`, `3i+2`. -/
lemma colourList_getD (k : Nat) (s : List Nat) (i : Nat) (hi : i < k) :
    (colourList k s).getD i Colour.BLACK =
      { r := s.getD (3 * i) 0 * 4 % 256,
        g := s.getD (3 * i + 1) 0 * 4 % 256,
        b := s.getD (3 * i + 2) 0 * 4 % 256 } := by
  induction k generalizing s i with
  | zero => omega
  | succ k ih =>
    cases i with
    | zero => simp [colourList]
    | succ i =>
      rw [colourList, List.getD_cons_succ, ih (s.drop 3) i (by omega)]
      simp only [List.getD_eq_getElem?_getD, List.getElem?_drop]
      rw [show 3 + 3 * i = 3 * (i + 1) from by ring,
        show 3 + (3 * i + 1) = 3 * (i + 1) + 1 from by ring,
        show 3 + (3 * i + 2) = 3 * (i + 1) + 2 from by ring]

/-- The palette loop fails exactly when fewer than `3k` bytes remain, and
otherwise consumes exactly `3k` bytes, producing `colourList`. -/
lemma readColours_eq (k : Nat) (s : List Nat) :
    readColours k s =
      if s.length < 3 * k then .error ()
      else .ok (colourList k s, s.drop (3 * k)) := by
  induction k generalizing s with
  | zero => simp [readColours, colourList]
  | succ k ih =>
    rcases s with _ | ⟨r, _ | ⟨g, _ | ⟨b, t⟩⟩⟩
    · simp only [readColours, readColour, List.length_nil]
      rw [if_pos (by omega)]
    · simp only [readColours, readColour, List.length_cons, List.length_nil]
      rw [if_pos (by omega)]
    · simp only [readColours, readColour, List.length_cons, List.length_nil]
      rw [if_pos (by omega)]
    · simp only [readColours, readColour, ih, List.length_cons]
      have hdrop : (r :: g :: b :: t).drop (3 * (k + 1)) = t.drop (3 * k) := by
        rw [show 3 * (k + 1) = 3 * k + 1 + 1 + 1 from by ring]
        simp [List.drop_succ_cons]
      by_cases h : t.length < 3 * k
      · rw [if_pos h, if_pos (by omega)]
      · rw [if_neg h, if_neg (by omega), hdrop]
        simp [colourList]

/-- Full characterisation of `load_model`: it succeeds exactly when the
stream holds the 12 header bytes, the (`u32`-wrapped) `gridLen` grid bytes
and the 768 palette bytes, and then the model's fields are the decoded
header, the grid slice, and the scaled palette; any shorter stream fails. -/
lemma load_model_eq (s : List Nat) :
    load_model s =
      if s.length < 12 + gridLen s + 768 then .error ()
      else .ok { width := val4 s, height := val4 (s.drop 4),
                 depth := val4 (s.drop 8),
                 palette := colourList PALETTE_SIZE (s.drop (12 + gridLen s)),
                 data := (s.drop 12).take (gridLen s) } := by
  unfold load_model
  rw [readU32LE_eq s]
  by_cases h1 : s.length < 4
  · rw [if_pos h1, if_pos (by omega)]
  · rw [if_neg h1]
    simp only []
    rw [readU32LE_eq (s.drop 4), List.length_drop]
    by_cases h2 : s.length - 4 < 4
    · rw [if_pos h2, if_pos (by omega)]
    · rw [if_neg h2]
      simp only [List.drop_drop]
      rw [show (4 : Nat) + 4 = 8 from rfl]
      rw [readU32LE_eq (s.drop 8), List.length_drop]
      by_cases h3 : s.length - 8 < 4
      · rw [if_pos h3, if_pos (by omega)]
      · rw [if_neg h3]
        simp only [List.drop_drop]
        rw [show (8 : Nat) + 4 = 12 from rfl]
        rw [show val4 s * val4 (List.drop 4 s) % U32_MOD *
              val4 (List.drop 8 s) % U32_MOD = gridLen s from rfl]
        rw [readBytes, List.length_drop]
        by_cases h4 : gridLen s ≤ s.length - 12
        · rw [if_pos h4]
          simp only [List.drop_drop]
          rw [readColours_eq, List.length_drop]
          by_cases h5 : s.length - (12 + gridLen s) < 3 * PALETTE_SIZE
          · rw [if_pos h5,
              if_pos (by rw [show 3 * PALETTE_SIZE = 768 from rfl] at h5; omega)]
          · rw [if_neg h5,
              if_neg (by rw [show 3 * PALETTE_SIZE = 768 from rfl] at h5; omega)]
        · rw [if_neg h4, if_pos (by omega)]

/-- Decoding the four little-endian bytes of `n < 2^32` recovers `n`. -/
lemma val4_le4 (n : Nat) (X : List Nat) (hn : n < U32_MOD) :
    val4 (le4 n ++ X) = n := by
  show n % 256 + 256 * (n / 256 % 256) + 65536 * (n / 65536 % 256) +
    16777216 * (n / 16777216 % 256) = n
  rw [show U32_MOD = 4294967296 from rfl] at hn
  omega

/-- Reading inside the taken prefix sees the original bytes. -/
lemma getD_take (l : List Nat) (k p : Nat) (h : p < k) :
    (l.take k).getD p 0 = l.getD p 0 := by
  rw [List.getD_eq_getElem?_getD, List.getD_eq_getElem?_getD,
    List.getElem?_take, if_pos h]

/-- The value `val4` only depends on the first four bytes. -/
lemma val4_take (l : List Nat) (k : Nat) (hk : 4 ≤ k) :
    val4 (l.take k) = val4 l := by
  unfold val4
  rw [getD_take _ _ _ (by omega), getD_take _ _ _ (by omega),
    getD_take _ _ _ (by omega), getD_take _ _ _ (by omega)]

/-- The palette reader only consumes its `3k` bytes. -/
lemma colourList_append (k : Nat) (u v : List Nat) (hu : 3 * k ≤ u.length) :
    colourList k (u ++ v) = colourList k u := by
  induction k generalizing u with
  | zero => simp [colourList]
  | succ k ih =>
    rw [colourList, colourList,
      List.getD_append u v 0 0 (by omega),
      List.getD_append u v 0 1 (by omega),
      List.getD_append u v 0 2 (by omega),
      List.drop_append_of_le_length (by omega),
      ih (u.drop 3) (by rw [List.length_drop]; omega)]

/-- Inversion of a successful decode: the fields are the parsed header, the
grid slice and the scaled palette, and the stream was long enough. -/
lemma load_model_ok {s : List Nat} {m : VoxelModel}
    (h : load_model s = .ok m) :
    m.width = val4 s ∧ m.height = val4 (s.drop 4) ∧ m.depth = val4 (s.drop 8)
    ∧ m.data = (s.drop 12).take (gridLen s)
    ∧ m.palette = colourList PALETTE_SIZE (s.drop (12 + gridLen s))
    ∧ 12 + gridLen s + 768 ≤ s.length := by
  rw [load_model_eq] at h
  by_cases hc : s.length < 12 + gridLen s + 768
  · rw [if_pos hc] at h
    exact absurd h (by simp)
  · rw [if_neg hc] at h
    simp only [Except.ok.injEq] at h
    subst h
    exact ⟨rfl, rfl, rfl, rfl, rfl, by omega⟩

set_option maxRecDepth 8000 in
/-- Counterexample to C6 as stated: a 780-byte stream declaring dimensions
`2^31 × 2 × 1` decodes successfully — the `u32` size product wraps to `0`, so
zero grid bytes are read — although the stream is far shorter than the
`12 + 2^31·2·1 + 768` bytes the claim requires before success. -/
theorem load_model_decode_C6_cex :
    load_model ([0, 0, 0, 128, 2, 0, 0, 0, 1, 0, 0, 0] ++
        List.replicate 768 0) =
      .ok { width := 2147483648, height := 2, depth := 1,
            palette := List.replicate 256 { r := 0, g := 0, b := 0 },
            data := [] }
    ∧ ([0, 0, 0, 128, 2, 0, 0, 0, 1, 0, 0, 0] ++
        List.replicate 768 0).length < 12 + 2147483648 * 2 * 1 + 768 := by
  refine ⟨rfl, ?_⟩
  norm_num [List.length_append, List.length_replicate]

/-- C6 as amended: the decoder reads the three little-endian `u32` header
fields, then exactly `width*height*depth` grid bytes computed as a wrapping
`u32` product (`w*h % 2^32 * d % 2^32`, equal to `w*h*d` whenever that fits
`u32`), then 256 palette entries of one `r`, `g`, `b` byte each; and every
truncation of that stream below the required length fails with the error
and returns no model. -/
theorem load_model_decode_C6 (w h d : Nat) (hw : w < U32_MOD)
    (hh : h < U32_MOD) (hd : d < U32_MOD) (grid pal rest : List Nat)
    (hg : grid.length = w * h % U32_MOD * d % U32_MOD)
    (hp : pal.length = 768) (k : Nat)
    (hk : k < 12 + (w * h % U32_MOD * d % U32_MOD) + 768) :
    load_model (le4 w ++ le4 h ++ le4 d ++ grid ++ pal ++ rest) =
      .ok { width := w, height := h, depth := d,
            palette := colourList PALETTE_SIZE pal, data := grid }
    ∧ load_model ((le4 w ++ le4 h ++ le4 d ++ grid ++ pal).take k) =
        .error () := by
  simp only [List.append_assoc]
  constructor
  · have eS12 : (le4 w ++ (le4 h ++ (le4 d ++ (grid ++ (pal ++ rest))))).drop 12 =
        grid ++ (pal ++ rest) := rfl
    have hv1 : val4 (le4 w ++ (le4 h ++ (le4 d ++ (grid ++ (pal ++ rest))))) = w :=
      val4_le4 w _ hw
    have hv2 : val4 ((le4 w ++ (le4 h ++ (le4 d ++ (grid ++ (pal ++ rest))))).drop 4) = h :=
      val4_le4 h _ hh
    have hv3 : val4 ((le4 w ++ (le4 h ++ (le4 d ++ (grid ++ (pal ++ rest))))).drop 8) = d :=
      val4_le4 d _ hd
    have hgl : gridLen (le4 w ++ (le4 h ++ (le4 d ++ (grid ++ (pal ++ rest))))) =
        w * h % U32_MOD * d % U32_MOD := by
      unfold gridLen
      rw [hv1, hv2, hv3]
    have hSlen : 12 + (w * h % U32_MOD * d % U32_MOD) + 768 ≤
        (le4 w ++ (le4 h ++ (le4 d ++ (grid ++ (pal ++ rest))))).length := by
      simp only [List.length_append, le4, List.length_cons, List.length_nil,
        hg, hp]
      omega
    rw [load_model_eq, if_neg (by rw [hgl]; omega)]
    simp only [Except.ok.injEq, VoxelModel.mk.injEq]
    refine ⟨hv1, hv2, hv3, ?_, ?_⟩
    · rw [← List.drop_drop, eS12, hgl, ← hg, List.drop_left' rfl,
        colourList_append PALETTE_SIZE pal rest (by rw [hp]; rfl)]
    · rw [eS12, hgl, ← hg, List.take_left' rfl]
  · have hTfull : (le4 w ++ (le4 h ++ (le4 d ++ (grid ++ pal)))).length =
        12 + grid.length + 768 := by
      simp only [List.length_append, le4, List.length_cons, List.length_nil,
        hp]
      omega
    rw [load_model_eq, if_pos ?_]
    rw [List.length_take, hTfull]
    by_cases hk12 : k ≤ 12
    · omega
    · have hv1T : val4 ((le4 w ++ (le4 h ++ (le4 d ++ (grid ++ pal)))).take k) = w := by
        rw [val4_take _ k (by omega)]
        exact val4_le4 w _ hw
      have hv2T : val4 (((le4 w ++ (le4 h ++ (le4 d ++ (grid ++ pal)))).take k).drop 4) = h := by
        rw [List.drop_take k 4, val4_take _ _ (by omega)]
        rw [show List.drop 4 (le4 w ++ (le4 h ++ (le4 d ++ (grid ++ pal)))) =
            le4 h ++ (le4 d ++ (grid ++ pal)) from rfl]
        exact val4_le4 h _ hh
      have hv3T : val4 (((le4 w ++ (le4 h ++ (le4 d ++ (grid ++ pal)))).take k).drop 8) = d := by
        rw [List.drop_take k 8, val4_take _ _ (by omega)]
        rw [show List.drop 8 (le4 w ++ (le4 h ++ (le4 d ++ (grid ++ pal)))) =
            le4 d ++ (grid ++ pal) from rfl]
        exact val4_le4 d _ hd
      have hglT : gridLen ((le4 w ++ (le4 h ++ (le4 d ++ (grid ++ pal)))).take k) =
          w * h % U32_MOD * d % U32_MOD := by
        unfold gridLen
        rw [hv1T, hv2T, hv3T]
      rw [hglT]
      omega

/-- Witness for the amended C6 with a 1×1×1 header, one grid byte, a zero
palette and truncation at 5 bytes. -/
theorem load_model_decode_C6_witness :
    ((1 : Nat) < U32_MOD ∧
      ([7] : List Nat).length = 1 * 1 % U32_MOD * 1 % U32_MOD ∧
      (List.replicate 768 0 : List Nat).length = 768 ∧
      (5 : Nat) < 12 + 1 * 1 % U32_MOD * 1 % U32_MOD + 768) ∧
    (load_model (le4 1 ++ le4 1 ++ le4 1 ++ [7] ++ List.replicate 768 0 ++
        ([] : List Nat)) =
      .ok { width := 1, height := 1, depth := 1,
            palette := colourList PALETTE_SIZE (List.replicate 768 0),
            data := [7] }
    ∧ load_model
        ((le4 1 ++ le4 1 ++ le4 1 ++ [7] ++ List.replicate 768 0).take 5) =
        .error ()) :=
  ⟨⟨by decide, by decide, by rw [List.length_replicate], by decide⟩,
    load_model_decode_C6 1 1 1 (by decide) (by decide) (by decide) [7]
      (List.replicate 768 0) [] (by decide) (by rw [List.length_replicate]) 5
      (by decide)⟩

set_option maxRecDepth 8000 in
/-- Counterexample to C7 as stated: the same overflowing header decodes to a
model whose grid holds `2^31·2·1 mod 2^32 = 0` bytes, not
`width*height*depth` of them. -/
theorem load_model_grid_C7_cex :
    load_model ([0, 0, 0, 128, 2, 0, 0, 0, 1, 0, 0, 0] ++
        List.replicate 768 0) =
      .ok { width := 2147483648, height := 2, depth := 1,
            palette := List.replicate 256 { r := 0, g := 0, b := 0 },
            data := [] }
    ∧ ([] : List Nat).length ≠ 2147483648 * 2 * 1 :=
  ⟨rfl, by norm_num⟩

/-- C7 as amended: every successfully decoded model satisfies
`data.length = width*height % 2^32 * depth % 2^32` (the wrapping `u32` size
product), which equals `width*height*depth` whenever that product fits in
`u32`. -/
theorem load_model_grid_C7 (s : List Nat) (m : VoxelModel)
    (hm : load_model s = .ok m) :
    m.data.length = m.width * m.height % U32_MOD * m.depth % U32_MOD
    ∧ (m.width * m.height * m.depth < U32_MOD →
        m.data.length = m.width * m.height * m.depth) := by
  obtain ⟨hw, hh, hd, hdata, -, hlen⟩ := load_model_ok hm
  have hg : m.width * m.height % U32_MOD * m.depth % U32_MOD = gridLen s := by
    rw [hw, hh, hd]
    rfl
  have hdl : m.data.length = gridLen s := by
    rw [hdata, List.length_take, List.length_drop]
    omega
  refine ⟨by rw [hdl, hg], ?_⟩
  intro hlt
  rcases Nat.eq_zero_or_pos m.depth with h0 | h0
  · rw [hdl, ← hg, h0]
    simp
  · have h1 : m.width * m.height < U32_MOD := by
      have h2 : m.width * m.height * 1 ≤ m.width * m.height * m.depth :=
        Nat.mul_le_mul_left _ h0
      omega
    rw [hdl, ← hg, Nat.mod_eq_of_lt h1, Nat.mod_eq_of_lt hlt]

set_option maxRecDepth 8000 in
/-- Witness for the amended C7 on a well-formed 1×1×1 stream. -/
theorem load_model_grid_C7_witness :
    load_model ([1, 0, 0, 0, 1, 0, 0, 0, 1, 0, 0, 0, 7] ++
        List.replicate 768 5) =
      .ok { width := 1, height := 1, depth := 1,
            palette := List.replicate 256 { r := 20, g := 20, b := 20 },
            data := [7] }
    ∧ (([7] : List Nat).length = 1 * 1 % U32_MOD * 1 % U32_MOD
      ∧ (1 * 1 * 1 < U32_MOD → ([7] : List Nat).length = 1 * 1 * 1)) :=
  ⟨rfl,
    load_model_grid_C7
      ([1, 0, 0, 0, 1, 0, 0, 0, 1, 0, 0, 0, 7] ++ List.replicate 768 5)
      { width := 1, height := 1, depth := 1,
        palette := List.replicate 256 { r := 20, g := 20, b := 20 },
        data := [7] }
      (by exact rfl)⟩

/-- C8: every decoded palette channel is the raw stream byte at its offset
(`12 + data.length + 3i` for entry `i`, channels in `r`, `g`, `b` order)
scaled by 4 in `u8` arithmetic (`*4 % 256`, no clamping); for raw bytes
below 64 — the format's declared 6-bit range — the product is exact. -/
theorem load_model_palette_C8 (s : List Nat) (m : VoxelModel) (i : Nat)
    (hm : load_model s = .ok m) (hi : i < 256) :
    m.palette.getD i Colour.BLACK =
      { r := s.getD (12 + m.data.length + 3 * i) 0 * 4 % 256,
        g := s.getD (12 + m.data.length + 3 * i + 1) 0 * 4 % 256,
        b := s.getD (12 + m.data.length + 3 * i + 2) 0 * 4 % 256 }
    ∧ (s.getD (12 + m.data.length + 3 * i) 0 < 64 →
        (m.palette.getD i Colour.BLACK).r =
          s.getD (12 + m.data.length + 3 * i) 0 * 4)
    ∧ (s.getD (12 + m.data.length + 3 * i + 1) 0 < 64 →
        (m.palette.getD i Colour.BLACK).g =
          s.getD (12 + m.data.length + 3 * i + 1) 0 * 4)
    ∧ (s.getD (12 + m.data.length + 3 * i + 2) 0 < 64 →
        (m.palette.getD i Colour.BLACK).b =
          s.getD (12 + m.data.length + 3 * i + 2) 0 * 4) := by
  obtain ⟨-, -, -, hdata, hpal, hlen⟩ := load_model_ok hm
  have hdl : m.data.length = gridLen s := by
    rw [hdata, List.length_take, List.length_drop]
    omega
  have hent : m.palette.getD i Colour.BLACK =
      { r := (s.drop (12 + gridLen s)).getD (3 * i) 0 * 4 % 256,
        g := (s.drop (12 + gridLen s)).getD (3 * i + 1) 0 * 4 % 256,
        b := (s.drop (12 + gridLen s)).getD (3 * i + 2) 0 * 4 % 256 } := by
    rw [hpal]
    exact colourList_getD PALETTE_SIZE _ i hi
  have g0 : (s.drop (12 + gridLen s)).getD (3 * i) 0 =
      s.getD (12 + m.data.length + 3 * i) 0 := by
    rw [hdl, List.getD_eq_getElem?_getD, List.getD_eq_getElem?_getD,
      List.getElem?_drop]
  have g1 : (s.drop (12 + gridLen s)).getD (3 * i + 1) 0 =
      s.getD (12 + m.data.length + 3 * i + 1) 0 := by
    rw [hdl, List.getD_eq_getElem?_getD, List.getD_eq_getElem?_getD,
      List.getElem?_drop,
      show 12 + gridLen s + (3 * i + 1) = 12 + gridLen s + 3 * i + 1 from by
        ring]
  have g2 : (s.drop (12 + gridLen s)).getD (3 * i + 2) 0 =
      s.getD (12 + m.data.length + 3 * i + 2) 0 := by
    rw [hdl, List.getD_eq_getElem?_getD, List.getD_eq_getElem?_getD,
      List.getElem?_drop,
      show 12 + gridLen s + (3 * i + 2) = 12 + gridLen s + 3 * i + 2 from by
        ring]
  refine ⟨by rw [hent, g0, g1, g2], ?_, ?_, ?_⟩
  · intro hb
    rw [hent]
    show (s.drop (12 + gridLen s)).getD (3 * i) 0 * 4 % 256 =
      s.getD (12 + m.data.length + 3 * i) 0 * 4
    rw [g0]
    omega
  · intro hb
    rw [hent]
    show (s.drop (12 + gridLen s)).getD (3 * i + 1) 0 * 4 % 256 =
      s.getD (12 + m.data.length + 3 * i + 1) 0 * 4
    rw [g1]
    omega
  · intro hb
    rw [hent]
    show (s.drop (12 + gridLen s)).getD (3 * i + 2) 0 * 4 % 256 =
      s.getD (12 + m.data.length + 3 * i + 2) 0 * 4
    rw [g2]
    omega

set_option maxRecDepth 8000 in
/-- Witness for C8: entry 0 of the palette of a 1×1×1 stream whose palette
bytes are all `5`, decoded to channel value `20 = 5 * 4`. -/
theorem load_model_palette_C8_witness :
    (load_model ([1, 0, 0, 0, 1, 0, 0, 0, 1, 0, 0, 0, 7] ++
        List.replicate 768 5) =
      .ok { width := 1, height := 1, depth := 1,
            palette := List.replicate 256 { r := 20, g := 20, b := 20 },
            data := [7] }
    ∧ (0 : Nat) < 256) ∧
    ((List.replicate 256 ({ r := 20, g := 20, b := 20 } : Colour)).getD 0
        Colour.BLACK =
      { r := ([1, 0, 0, 0, 1, 0, 0, 0, 1, 0, 0, 0, 7] ++
            List.replicate 768 5).getD (12 + ([7] : List Nat).length + 3 * 0)
            0 * 4 % 256,
        g := ([1, 0, 0, 0, 1, 0, 0, 0, 1, 0, 0, 0, 7] ++
            List.replicate 768 5).getD
            (12 + ([7] : List Nat).length + 3 * 0 + 1) 0 * 4 % 256,
        b := ([1, 0, 0, 0, 1, 0, 0, 0, 1, 0, 0, 0, 7] ++
            List.replicate 768 5).getD
            (12 + ([7] : List Nat).length + 3 * 0 + 2) 0 * 4 % 256 }
    ∧ (([1, 0, 0, 0, 1, 0, 0, 0, 1, 0, 0, 0, 7] ++
          List.replicate 768 5).getD (12 + ([7] : List Nat).length + 3 * 0)
          0 < 64 →
        ((List.replicate 256 ({ r := 20, g := 20, b := 20 } : Colour)).getD 0
            Colour.BLACK).r =
          ([1, 0, 0, 0, 1, 0, 0, 0, 1, 0, 0, 0, 7] ++
            List.replicate 768 5).getD (12 + ([7] : List Nat).length + 3 * 0)
            0 * 4)
    ∧ (([1, 0, 0, 0, 1, 0, 0, 0, 1, 0, 0, 0, 7] ++
          List.replicate 768 5).getD
          (12 + ([7] : List Nat).length + 3 * 0 + 1) 0 < 64 →
        ((List.replicate 256 ({ r := 20, g := 20, b := 20 } : Colour)).getD 0
            Colour.BLACK).g =
          ([1, 0, 0, 0, 1, 0, 0, 0, 1, 0, 0, 0, 7] ++
            List.replicate 768 5).getD
            (12 + ([7] : List Nat).length + 3 * 0 + 1) 0 * 4)
    ∧ (([1, 0, 0, 0, 1, 0, 0, 0, 1, 0, 0, 0, 7] ++
          List.replicate 768 5).getD
          (12 + ([7] : List Nat).length + 3 * 0 + 2) 0 < 64 →
        ((List.replicate 256 ({ r := 20, g := 20, b := 20 } : Colour)).getD 0
            Colour.BLACK).b =
          ([1, 0, 0, 0, 1, 0, 0, 0, 1, 0, 0, 0, 7] ++
            List.replicate 768 5).getD
            (12 + ([7] : List Nat).length + 3 * 0 + 2) 0 * 4)) :=
  ⟨⟨rfl, by decide⟩,
    load_model_palette_C8
      ([1, 0, 0, 0, 1, 0, 0, 0, 1, 0, 0, 0, 7] ++ List.replicate 768 5)
      { width := 1, height := 1, depth := 1,
        palette := List.replicate 256 { r := 20, g := 20, b := 20 },
        data := [7] }
      0 rfl (by decide)⟩

end Graphics
